import Mathlib

set_option maxHeartbeats 1000000

/-!
Shallow embedding of `src/generator.py` from the `dead` repository.

The file models, faithfully to the Python source:
* the interesting-case discovery loop `CaseGenerator.generate_interesting_case`
  (the external Builder's `find_alive_markers` and the Checker's
  `is_interesting` are oracles; raising `CompileError` is modelled as the
  oracle returning `none`);
* the external-generator retry loops `run_csmith` and `run_yarpgen`
  (each external invocation's outcome is an element of an input list;
  an empty remainder means the infinite loop would keep running, which the
  model reports as `pending`);
* the instrumentation loop `generate_file` (each iteration's external events
  are an element of an input list);
* the start/stop backpressure consumer loop of `parallel_interesting_case`
  as a small-step transition system, and `terminate_processes` together with
  the documented OS contract for SIGCONT/SIGTERM.
-/

namespace Dead

/-- A compiler configuration; only identity and optimization level matter to
the discovery algorithm (`utils.CompilerSetting`). -/
structure CompilerSetting where
  compiler : Nat
  opt_level : Nat
deriving DecidableEq

/-- `utils.Scenario`: target settings and attacker settings. -/
structure Scenario where
  target_settings : List CompilerSetting
  attacker_settings : List CompilerSetting
deriving DecidableEq

/-- Program text. -/
abbrev Code := List Char

/-- Instrumentation marker identifier. -/
abbrev Marker := Nat

/-- `utils.Case`, as constructed at `generator.py:329`-`338`. -/
structure Case where
  code : Code
  marker : Marker
  bad_setting : CompilerSetting
  good_settings : List CompilerSetting
  scenario : Scenario
  reduced_code : Option Code
  bisection : Option (List Char)
  path : Option (List Char)
deriving DecidableEq

/-- Oracle for `builder.find_alive_markers(code, setting, prefix, builder)`:
`none` models a raised `builder.CompileError`, `some ms` the computed
alive-marker set.  The marker prefix is the constant `"DCEMarker"` and is
dropped.  The oracle is a function, so repeated queries agree, matching a
deterministic builder. -/
abbrev AliveOracle := Code → CompilerSetting → Option (List Marker)

/-- Oracle for `checker.Checker.is_interesting(case)`: `none` models a raised
`builder.CompileError`. -/
abbrev InterestingOracle := Case → Option Bool

/-- The two list comprehensions at `generator.py:283`-`301`: compute the
alive-marker set for every setting; any `CompileError` (a `none` from the
oracle) aborts the whole computation. -/
def settings_alive (alive : AliveOracle) (code : Code) :
    List CompilerSetting → Option (List (CompilerSetting × List Marker))
  | [] => some []
  | s :: ss =>
    match alive code s, settings_alive alive code ss with
    | some ms, some rest => some ((s, ms) :: rest)
    | _, _ => none

/-- The inner `for bad_setting, bad_alive_markers in target_alive_marker_list`
loop at `generator.py:322`-`347`: build a tentative `Case` for every target
setting that kept the marker at a matching optimization level; return the
first one the Checker accepts; a `CompileError` from the Checker (oracle
`none`) discards only that tentative case. -/
def find_bad_case (intr : InterestingOracle) (code : Code) (sc : Scenario)
    (marker : Marker) (good : List CompilerSetting) (gols : List Nat) :
    List (CompilerSetting × List Marker) → Option Case
  | [] => none
  | (bs, bms) :: rest =>
    if marker ∈ bms ∧ bs.opt_level ∈ gols then
      match intr (Case.mk code marker bs good sc none none none) with
      | some true => some (Case.mk code marker bs good sc none none none)
      | _ => find_bad_case intr code sc marker good gols rest
    else find_bad_case intr code sc marker good gols rest

/-- The body of `for marker in target_alive_markers` at
`generator.py:311`-`327`: collect the attacker settings that eliminated the
marker; if any did, search the target settings for a bad setting. -/
def try_marker (intr : InterestingOracle) (code : Code) (sc : Scenario)
    (tl al : List (CompilerSetting × List Marker)) (marker : Marker) :
    Option Case :=
  let good := (al.filter (fun p => decide (marker ∉ p.2))).map Prod.fst
  if good.length > 0 then
    find_bad_case intr code sc marker good (good.map (·.opt_level)) tl
  else none

/-- The `for marker in target_alive_markers` loop at `generator.py:311`. -/
def search_markers (intr : InterestingOracle) (code : Code) (sc : Scenario)
    (tl al : List (CompilerSetting × List Marker)) :
    List Marker → Option Case
  | [] => none
  | m :: ms =>
    match try_marker intr code sc tl al m with
    | some c => some c
    | none => search_markers intr code sc tl al ms

/-- One iteration of the `while True` loop of `generate_interesting_case`
(`generator.py:274`-`351`) for one instrumented candidate: `none` means the
attempt found no accepted case (or a `CompileError` aborted the alive-marker
computation) and the loop moves on to a fresh candidate.
`target_alive_markers` is a Python `set` built by `update`; its iteration
order is unspecified, so the model fixes one order (first-occurrence order,
`dedup`); the proved invariants are independent of the order. -/
def attempt_case (alive : AliveOracle) (intr : InterestingOracle)
    (sc : Scenario) (code : Code) : Option Case :=
  match settings_alive alive code sc.target_settings,
        settings_alive alive code sc.attacker_settings with
  | some tl, some al =>
    search_markers intr code sc tl al ((tl.map Prod.snd).flatten.dedup)
  | _, _ => none

/-- `CaseGenerator.generate_interesting_case` (`generator.py:258`-`351`):
the input list holds the successive instrumented candidates produced by
`generate_file`, one per attempt; `none` means the modelled candidate stream
ran out while the real loop would keep searching. -/
def generate_interesting_case (alive : AliveOracle) (intr : InterestingOracle)
    (sc : Scenario) : List Code → Option Case
  | [] => none
  | code :: rest =>
    match attempt_case alive intr sc code with
    | some c => some c
    | none => generate_interesting_case alive intr sc rest

theorem settings_alive_mem (alive : AliveOracle) (code : Code) :
    ∀ (ss : List CompilerSetting) (l : List (CompilerSetting × List Marker)),
      settings_alive alive code ss = some l →
      ∀ p ∈ l, alive code p.1 = some p.2 := by
  intro ss
  induction ss with
  | nil =>
    intro l h p hp
    simp only [settings_alive, Option.some.injEq] at h
    subst h
    simp at hp
  | cons s ss ih =>
    intro l h p hp
    simp only [settings_alive] at h
    cases hs : alive code s with
    | none => rw [hs] at h; simp at h
    | some ms =>
      cases hr : settings_alive alive code ss with
      | none => rw [hs, hr] at h; simp at h
      | some rest =>
        rw [hs, hr] at h
        simp only [Option.some.injEq] at h
        subst h
        rcases List.mem_cons.mp hp with hp | hp
        · subst hp; simpa using hs
        · exact ih rest hr p hp

theorem settings_alive_none (alive : AliveOracle) (code : Code) :
    ∀ (ss : List CompilerSetting) (s : CompilerSetting), s ∈ ss →
      alive code s = none → settings_alive alive code ss = none := by
  intro ss
  induction ss with
  | nil => intro s hs; simp at hs
  | cons a ss ih =>
    intro s hs hnone
    rcases List.mem_cons.mp hs with hs | hs
    · simp only [settings_alive]
      rw [hs] at hnone
      rw [hnone]
    · simp only [settings_alive]
      rw [ih s hs hnone]
      cases alive code a <;> rfl

theorem find_bad_case_some (intr : InterestingOracle) (code : Code)
    (sc : Scenario) (marker : Marker) (good : List CompilerSetting)
    (gols : List Nat) :
    ∀ (tl : List (CompilerSetting × List Marker)) (c : Case),
      find_bad_case intr code sc marker good gols tl = some c →
      c = Case.mk code marker c.bad_setting good sc none none none ∧
      c.bad_setting.opt_level ∈ gols ∧
      (∃ bms, (c.bad_setting, bms) ∈ tl ∧ marker ∈ bms) ∧
      intr c = some true := by
  intro tl
  induction tl with
  | nil => intro c h; simp [find_bad_case] at h
  | cons p rest ih =>
    intro c h
    obtain ⟨bs, bms⟩ := p
    simp only [find_bad_case] at h
    by_cases hcond : marker ∈ bms ∧ bs.opt_level ∈ gols
    · rw [if_pos hcond] at h
      cases hintr : intr (Case.mk code marker bs good sc none none none) with
      | none =>
        rw [hintr] at h
        obtain ⟨h1, h2, ⟨bms', h3, h4⟩, h5⟩ := ih c h
        exact ⟨h1, h2, ⟨bms', List.mem_cons_of_mem _ h3, h4⟩, h5⟩
      | some b =>
        cases b with
        | false =>
          rw [hintr] at h
          obtain ⟨h1, h2, ⟨bms', h3, h4⟩, h5⟩ := ih c h
          exact ⟨h1, h2, ⟨bms', List.mem_cons_of_mem _ h3, h4⟩, h5⟩
        | true =>
          rw [hintr] at h
          simp only [Option.some.injEq] at h
          subst h
          refine ⟨rfl, hcond.2, ⟨bms, List.mem_cons_self _ _, hcond.1⟩, hintr⟩
    · rw [if_neg hcond] at h
      obtain ⟨h1, h2, ⟨bms', h3, h4⟩, h5⟩ := ih c h
      exact ⟨h1, h2, ⟨bms', List.mem_cons_of_mem _ h3, h4⟩, h5⟩

theorem try_marker_some (intr : InterestingOracle) (code : Code)
    (sc : Scenario) (tl al : List (CompilerSetting × List Marker))
    (m : Marker) (c : Case)
    (h : try_marker intr code sc tl al m = some c) :
    c.good_settings = (al.filter (fun p => decide (m ∉ p.2))).map Prod.fst ∧
    c.good_settings ≠ [] ∧
    c = Case.mk code m c.bad_setting c.good_settings sc none none none ∧
    c.bad_setting.opt_level ∈ c.good_settings.map (·.opt_level) ∧
    (∃ bms, (c.bad_setting, bms) ∈ tl ∧ m ∈ bms) ∧
    intr c = some true := by
  unfold try_marker at h
  set good := (al.filter (fun p => decide (m ∉ p.2))).map Prod.fst with hgood
  by_cases hlen : good.length > 0
  · rw [if_pos hlen] at h
    obtain ⟨h1, h2, h3, h4⟩ :=
      find_bad_case_some intr code sc m good (good.map (·.opt_level)) tl c h
    have hgs : c.good_settings = good := by rw [h1]
    refine ⟨hgs, ?_, ?_, ?_, h3, h4⟩
    · rw [hgs]
      intro hnil
      rw [hnil] at hlen
      simp at hlen
    · rw [hgs]; exact h1
    · rw [hgs]; exact h2
  · rw [if_neg hlen] at h
    simp at h

theorem search_markers_some (intr : InterestingOracle) (code : Code)
    (sc : Scenario) (tl al : List (CompilerSetting × List Marker)) :
    ∀ (ms : List Marker) (c : Case),
      search_markers intr code sc tl al ms = some c →
      ∃ m ∈ ms, try_marker intr code sc tl al m = some c := by
  intro ms
  induction ms with
  | nil => intro c h; simp [search_markers] at h
  | cons m ms ih =>
    intro c h
    simp only [search_markers] at h
    cases ht : try_marker intr code sc tl al m with
    | none =>
      rw [ht] at h
      obtain ⟨m', hm', h'⟩ := ih c h
      exact ⟨m', List.mem_cons_of_mem _ hm', h'⟩
    | some c' =>
      rw [ht] at h
      simp only [Option.some.injEq] at h
      subst h
      exact ⟨m, List.mem_cons_self _ _, ht⟩

theorem attempt_case_some (alive : AliveOracle) (intr : InterestingOracle)
    (sc : Scenario) (code : Code) (c : Case)
    (h : attempt_case alive intr sc code = some c) :
    ∃ tl al,
      settings_alive alive code sc.target_settings = some tl ∧
      settings_alive alive code sc.attacker_settings = some al ∧
      ∃ m, try_marker intr code sc tl al m = some c := by
  unfold attempt_case at h
  cases htl : settings_alive alive code sc.target_settings with
  | none => rw [htl] at h; simp at h
  | some tl =>
    cases hal : settings_alive alive code sc.attacker_settings with
    | none => rw [htl, hal] at h; simp at h
    | some al =>
      rw [htl, hal] at h
      obtain ⟨m, _, hm⟩ := search_markers_some intr code sc tl al _ c h
      exact ⟨tl, al, rfl, rfl, m, hm⟩

theorem generate_interesting_case_some (alive : AliveOracle)
    (intr : InterestingOracle) (sc : Scenario) :
    ∀ (codes : List Code) (c : Case),
      generate_interesting_case alive intr sc codes = some c →
      ∃ code ∈ codes, attempt_case alive intr sc code = some c := by
  intro codes
  induction codes with
  | nil => intro c h; simp [generate_interesting_case] at h
  | cons code rest ih =>
    intro c h
    simp only [generate_interesting_case] at h
    cases ha : attempt_case alive intr sc code with
    | none =>
      rw [ha] at h
      obtain ⟨code', hc', h'⟩ := ih c h
      exact ⟨code', List.mem_cons_of_mem _ hc', h'⟩
    | some c' =>
      rw [ha] at h
      simp only [Option.some.injEq] at h
      subst h
      exact ⟨code, List.mem_cons_self _ _, ha⟩

/-- All the structure a returned case carries, extracted once and shared by
the claim theorems below. -/
theorem generate_interesting_case_anatomy (alive : AliveOracle)
    (intr : InterestingOracle) (sc : Scenario) (codes : List Code) (c : Case)
    (h : generate_interesting_case alive intr sc codes = some c) :
    ∃ al,
      settings_alive alive c.code sc.attacker_settings = some al ∧
      c.good_settings =
        (al.filter (fun p => decide (c.marker ∉ p.2))).map Prod.fst ∧
      c.good_settings ≠ [] ∧
      (∃ bms, alive c.code c.bad_setting = some bms ∧ c.marker ∈ bms) ∧
      c.bad_setting.opt_level ∈ c.good_settings.map (·.opt_level) ∧
      c.scenario = sc ∧
      c.reduced_code = none ∧ c.bisection = none ∧ c.path = none := by
  obtain ⟨code, _, ha⟩ := generate_interesting_case_some alive intr sc codes c h
  obtain ⟨tl, al, htl, hal, m, hm⟩ := attempt_case_some alive intr sc code c ha
  obtain ⟨hgs, hne, hshape, htier, ⟨bms, hmem, hmk⟩, _⟩ :=
    try_marker_some intr code sc tl al m c hm
  have hcode : c.code = code := by rw [hshape]
  have hmarker : c.marker = m := by rw [hshape]
  have hsc : c.scenario = sc := by rw [hshape]
  have hbad : alive code c.bad_setting = some bms :=
    settings_alive_mem alive code sc.target_settings tl htl (c.bad_setting, bms) hmem
  refine ⟨al, ?_, ?_, hne, ⟨bms, ?_, ?_⟩, htier, hsc, ?_, ?_, ?_⟩
  · rw [hcode]; exact hal
  · rw [hmarker]; exact hgs
  · rw [hcode]; exact hbad
  · rw [hmarker]; exact hmk
  · rw [hshape]
  · rw [hshape]
  · rw [hshape]

/-- C1: for every Case returned by `generate_interesting_case`, the marker is
in the alive-marker set computed for `bad_setting`, and for every setting in
`good_settings` the alive-marker set was computed successfully and does not
contain the marker. -/
theorem generate_interesting_case_core_invariant (alive : AliveOracle)
    (intr : InterestingOracle) (sc : Scenario) (codes : List Code) (c : Case)
    (h : generate_interesting_case alive intr sc codes = some c) :
    (∃ ms, alive c.code c.bad_setting = some ms ∧ c.marker ∈ ms) ∧
    (∀ g ∈ c.good_settings,
      ∃ ms, alive c.code g = some ms ∧ c.marker ∉ ms) := by
  obtain ⟨al, hal, hgs, _, hbad, _, _, _, _, _⟩ :=
    generate_interesting_case_anatomy alive intr sc codes c h
  refine ⟨hbad, ?_⟩
  intro g hg
  rw [hgs] at hg
  obtain ⟨p, hp, hpg⟩ := List.mem_map.mp hg
  have hpal : p ∈ al := List.mem_of_mem_filter hp
  have hpfilter := List.of_mem_filter hp
  have hnotin : c.marker ∉ p.2 := by simpa using hpfilter
  have := settings_alive_mem alive c.code sc.attacker_settings al hal p hpal
  exact ⟨p.2, by rw [← hpg]; exact this, hnotin⟩

/-- C1 witness. -/
theorem generate_interesting_case_core_invariant_witness :
    (∃ ms,
        (fun (_ : Code) (s : CompilerSetting) =>
            if s.compiler = 0 then some [7] else some ([] : List Marker))
          (Case.mk ['x'] 7 (CompilerSetting.mk 0 2) [CompilerSetting.mk 1 2]
            (Scenario.mk [CompilerSetting.mk 0 2] [CompilerSetting.mk 1 2])
            none none none).code
          (Case.mk ['x'] 7 (CompilerSetting.mk 0 2) [CompilerSetting.mk 1 2]
            (Scenario.mk [CompilerSetting.mk 0 2] [CompilerSetting.mk 1 2])
            none none none).bad_setting = some ms ∧
        (7 : Marker) ∈ ms) ∧
    (∀ g ∈ [CompilerSetting.mk 1 2],
      ∃ ms,
        (fun (_ : Code) (s : CompilerSetting) =>
            if s.compiler = 0 then some [7] else some ([] : List Marker)) ['x'] g
          = some ms ∧ (7 : Marker) ∉ ms) :=
  generate_interesting_case_core_invariant
    (fun _ s => if s.compiler = 0 then some [7] else some [])
    (fun _ => some true)
    (Scenario.mk [CompilerSetting.mk 0 2] [CompilerSetting.mk 1 2])
    [['x']]
    (Case.mk ['x'] 7 (CompilerSetting.mk 0 2) [CompilerSetting.mk 1 2]
      (Scenario.mk [CompilerSetting.mk 0 2] [CompilerSetting.mk 1 2])
      none none none)
    (by decide)

/-- C2: tier-matching for every returned Case. -/
theorem generate_interesting_case_tier_matching (alive : AliveOracle)
    (intr : InterestingOracle) (sc : Scenario) (codes : List Code) (c : Case)
    (h : generate_interesting_case alive intr sc codes = some c) :
    c.bad_setting.opt_level ∈ c.good_settings.map (·.opt_level) := by
  obtain ⟨al, hal, hgs, hne, hbad, htier, hsc, h1, h2, h3⟩ :=
    generate_interesting_case_anatomy alive intr sc codes c h
  exact htier

/-- C2 witness. -/
theorem generate_interesting_case_tier_matching_witness :
    (Case.mk ['x'] 7 (CompilerSetting.mk 0 2) [CompilerSetting.mk 1 2]
        (Scenario.mk [CompilerSetting.mk 0 2] [CompilerSetting.mk 1 2])
        none none none).bad_setting.opt_level ∈
      (Case.mk ['x'] 7 (CompilerSetting.mk 0 2) [CompilerSetting.mk 1 2]
        (Scenario.mk [CompilerSetting.mk 0 2] [CompilerSetting.mk 1 2])
        none none none).good_settings.map (·.opt_level) :=
  generate_interesting_case_tier_matching
    (fun _ s => if s.compiler = 0 then some [7] else some [])
    (fun _ => some true)
    (Scenario.mk [CompilerSetting.mk 0 2] [CompilerSetting.mk 1 2])
    [['x']]
    (Case.mk ['x'] 7 (CompilerSetting.mk 0 2) [CompilerSetting.mk 1 2]
      (Scenario.mk [CompilerSetting.mk 0 2] [CompilerSetting.mk 1 2])
      none none none)
    (by decide)

/-- C10: every returned Case has a non-empty `good_settings` list, and its
`reduced_code`, `bisection` and `path` fields are all `none` when returned. -/
theorem generate_interesting_case_fresh_case_fields (alive : AliveOracle)
    (intr : InterestingOracle) (sc : Scenario) (codes : List Code) (c : Case)
    (h : generate_interesting_case alive intr sc codes = some c) :
    c.good_settings ≠ [] ∧
    c.reduced_code = none ∧ c.bisection = none ∧ c.path = none := by
  obtain ⟨al, hal, hgs, hne, hbad, htier, hsc, h1, h2, h3⟩ :=
    generate_interesting_case_anatomy alive intr sc codes c h
  exact ⟨hne, h1, h2, h3⟩

/-- C10 witness. -/
theorem generate_interesting_case_fresh_case_fields_witness :
    (Case.mk ['x'] 7 (CompilerSetting.mk 0 2) [CompilerSetting.mk 1 2]
        (Scenario.mk [CompilerSetting.mk 0 2] [CompilerSetting.mk 1 2])
        none none none).good_settings ≠ [] ∧
    (Case.mk ['x'] 7 (CompilerSetting.mk 0 2) [CompilerSetting.mk 1 2]
        (Scenario.mk [CompilerSetting.mk 0 2] [CompilerSetting.mk 1 2])
        none none none).reduced_code = none ∧
    (Case.mk ['x'] 7 (CompilerSetting.mk 0 2) [CompilerSetting.mk 1 2]
        (Scenario.mk [CompilerSetting.mk 0 2] [CompilerSetting.mk 1 2])
        none none none).bisection = none ∧
    (Case.mk ['x'] 7 (CompilerSetting.mk 0 2) [CompilerSetting.mk 1 2]
        (Scenario.mk [CompilerSetting.mk 0 2] [CompilerSetting.mk 1 2])
        none none none).path = none :=
  generate_interesting_case_fresh_case_fields
    (fun _ s => if s.compiler = 0 then some [7] else some [])
    (fun _ => some true)
    (Scenario.mk [CompilerSetting.mk 0 2] [CompilerSetting.mk 1 2])
    [['x']]
    (Case.mk ['x'] 7 (CompilerSetting.mk 0 2) [CompilerSetting.mk 1 2]
      (Scenario.mk [CompilerSetting.mk 0 2] [CompilerSetting.mk 1 2])
      none none none)
    (by decide)

theorem find_bad_case_congr (intr1 intr2 : InterestingOracle)
    (hintr : ∀ c, intr1 c = intr2 c ∨ (intr1 c = none ∧ intr2 c = some false))
    (code : Code) (sc : Scenario) (marker : Marker)
    (good : List CompilerSetting) (gols : List Nat) :
    ∀ tl, find_bad_case intr1 code sc marker good gols tl =
          find_bad_case intr2 code sc marker good gols tl := by
  intro tl
  induction tl with
  | nil => rfl
  | cons p rest ih =>
    obtain ⟨bs, bms⟩ := p
    simp only [find_bad_case]
    by_cases hcond : marker ∈ bms ∧ bs.opt_level ∈ gols
    · rw [if_pos hcond, if_pos hcond]
      rcases hintr (Case.mk code marker bs good sc none none none) with
        he | ⟨h1, h2⟩
      · rw [he]
        cases intr2 (Case.mk code marker bs good sc none none none) with
        | none => exact ih
        | some b =>
          cases b with
          | false => exact ih
          | true => rfl
      · rw [h1, h2]; exact ih
    · rw [if_neg hcond, if_neg hcond]; exact ih

theorem search_markers_congr (intr1 intr2 : InterestingOracle)
    (hintr : ∀ c, intr1 c = intr2 c ∨ (intr1 c = none ∧ intr2 c = some false))
    (code : Code) (sc : Scenario)
    (tl al : List (CompilerSetting × List Marker)) :
    ∀ ms, search_markers intr1 code sc tl al ms =
          search_markers intr2 code sc tl al ms := by
  intro ms
  induction ms with
  | nil => rfl
  | cons m ms ih =>
    simp only [search_markers]
    have ht : try_marker intr1 code sc tl al m =
        try_marker intr2 code sc tl al m := by
      unfold try_marker
      by_cases hlen :
          ((al.filter (fun p => decide (m ∉ p.2))).map Prod.fst).length > 0
      · rw [if_pos hlen, if_pos hlen]
        exact find_bad_case_congr intr1 intr2 hintr code sc m _ _ tl
      · rw [if_neg hlen, if_neg hlen]
    rw [ht]
    cases try_marker intr2 code sc tl al m with
    | none => exact ih
    | some c => rfl

/-- C3: a `CompileError` during alive-marker computation (oracle `none` for a
target or attacker setting) aborts the whole attempt and the loop resumes
with the next candidate; a `CompileError` during the Checker's confirmation
behaves exactly like a rejection (`is_interesting = False`): only that
tentative case is discarded.  In both situations the error is caught, so in
the model both handlers continue the search rather than producing an error
outcome, and `generate_interesting_case` has no error result at all. -/
theorem compile_error_recovery :
    (∀ (alive : AliveOracle) (intr : InterestingOracle) (sc : Scenario)
        (code : Code) (rest : List Code) (s : CompilerSetting),
        (s ∈ sc.target_settings ∨ s ∈ sc.attacker_settings) →
        alive code s = none →
        attempt_case alive intr sc code = none ∧
        generate_interesting_case alive intr sc (code :: rest) =
          generate_interesting_case alive intr sc rest) ∧
    (∀ (alive : AliveOracle) (intr1 intr2 : InterestingOracle) (sc : Scenario)
        (codes : List Code),
        (∀ c, intr1 c = intr2 c ∨ (intr1 c = none ∧ intr2 c = some false)) →
        generate_interesting_case alive intr1 sc codes =
          generate_interesting_case alive intr2 sc codes) := by
  constructor
  · intro alive intr sc code rest s hs hnone
    have habort : attempt_case alive intr sc code = none := by
      unfold attempt_case
      rcases hs with hs | hs
      · rw [settings_alive_none alive code sc.target_settings s hs hnone]
      · rw [settings_alive_none alive code sc.attacker_settings s hs hnone]
        cases settings_alive alive code sc.target_settings <;> rfl
    refine ⟨habort, ?_⟩
    simp only [generate_interesting_case]
    rw [habort]
  · intro alive intr1 intr2 sc codes hintr
    induction codes with
    | nil => rfl
    | cons code rest ih =>
      simp only [generate_interesting_case]
      have ha : attempt_case alive intr1 sc code =
          attempt_case alive intr2 sc code := by
        unfold attempt_case
        cases settings_alive alive code sc.target_settings with
        | none => rfl
        | some tl =>
          cases settings_alive alive code sc.attacker_settings with
          | none => rfl
          | some al => exact search_markers_congr intr1 intr2 hintr code sc tl al _
      rw [ha]
      cases attempt_case alive intr2 sc code with
      | none => exact ih
      | some c => rfl

/-- C3 witness. -/
theorem compile_error_recovery_witness :
    (attempt_case (fun _ _ => none) (fun _ => some true)
        (Scenario.mk [CompilerSetting.mk 0 2] [CompilerSetting.mk 1 2])
        ['x'] = none ∧
      generate_interesting_case (fun _ _ => none) (fun _ => some true)
        (Scenario.mk [CompilerSetting.mk 0 2] [CompilerSetting.mk 1 2])
        [['x'], ['y']] =
      generate_interesting_case (fun _ _ => none) (fun _ => some true)
        (Scenario.mk [CompilerSetting.mk 0 2] [CompilerSetting.mk 1 2])
        [['y']]) ∧
    generate_interesting_case (fun _ _ => some [3]) (fun _ => none)
        (Scenario.mk [CompilerSetting.mk 0 2] [CompilerSetting.mk 1 2])
        [['x']] =
      generate_interesting_case (fun _ _ => some [3]) (fun _ => some false)
        (Scenario.mk [CompilerSetting.mk 0 2] [CompilerSetting.mk 1 2])
        [['x']] :=
  ⟨compile_error_recovery.1 (fun _ _ => none) (fun _ => some true)
      (Scenario.mk [CompilerSetting.mk 0 2] [CompilerSetting.mk 1 2])
      ['x'] [['y']] (CompilerSetting.mk 0 2) (Or.inl (by decide)) rfl,
    compile_error_recovery.2 (fun _ _ => some [3]) (fun _ => none)
      (fun _ => some false)
      (Scenario.mk [CompilerSetting.mk 0 2] [CompilerSetting.mk 1 2])
      [['x']] (fun _ => Or.inr ⟨rfl, rfl⟩)⟩

/-- Outcome of one invocation of the external csmith executable
(`subprocess.run` at `generator.py:77`): non-zero exit, or exit 0 with the
decoded stdout. -/
inductive CsmithOutcome
  | fail
  | ok (prog : List Char)
deriving DecidableEq

/-- Result of the `run_csmith` loop: a program, the fatal exception raised
once `tries > 10`, or `pending` when the modelled invocation list is
exhausted while the real `while True` loop would keep going. -/
inductive GenOutcome
  | ok (prog : List Char)
  | exhausted
  | pending
deriving DecidableEq

/-- The `while True` loop of `run_csmith` (`generator.py:38`-`83`) with its
`tries` counter. -/
def run_csmith_loop : Nat → List CsmithOutcome → GenOutcome
  | _, [] => .pending
  | _, .ok p :: _ => .ok p
  | tries, .fail :: rest =>
    if tries + 1 > 10 then .exhausted else run_csmith_loop (tries + 1) rest

/-- `run_csmith` (`generator.py:29`-`83`): `tries` starts at 0. -/
def run_csmith (outs : List CsmithOutcome) : GenOutcome :=
  run_csmith_loop 0 outs

/-- Outcome of one invocation of the external yarpgen executable
(`generator.py:132`): non-zero exit, or exit 0 together with the lines of
the two output files `driver.c` and `func.c` that the loop body reads. -/
inductive YarpgenOutcome
  | fail
  | ok (driver func : List (List Char))
deriving DecidableEq

/-- Result of the `run_yarpgen` loop.  `checkFail` models the uncaught
`AssertionError`/`IndexError` from `assert content[1][5] == ...` at
`generator.py:143` when `func.c` does not carry the self-include at the
expected line; `pending` as for csmith. -/
inductive YarpgenResult
  | ok (prog : List Char)
  | exhausted
  | checkFail
  | pending
deriving DecidableEq

/-- The line `#include "init.h"\n` expected at index 5 of `func.c`. -/
def initIncludeLine : List Char := ("#include " ++ "\"init.h\"" ++ "\n").data

/-- The substring rewritten at `generator.py:151`. -/
def voidTest : List Char := "void test".data

/-- Its replacement. -/
def staticVoidTest : List Char := "static void test".data

/-- `begins pat s` : `s` starts with `pat` (helper for `str.replace`). -/
def begins : List Char → List Char → Bool
  | [], _ => true
  | _ :: _, [] => false
  | p :: ps, c :: cs => p == c && begins ps cs

/-- Left-to-right non-overlapping replacement, the semantics of Python's
`str.replace(pat, rep)` for a non-empty `pat` (the only way the source uses
it).  The counter argument skips over the tail of a replaced occurrence. -/
def str_replace_go (pat rep : List Char) : Nat → List Char → List Char
  | _ + 1, [] => []
  | skip + 1, _ :: cs => str_replace_go pat rep skip cs
  | 0, [] => []
  | 0, c :: cs =>
    if begins pat (c :: cs) then
      rep ++ str_replace_go pat rep (pat.length - 1) cs
    else c :: str_replace_go pat rep 0 cs

/-- Python `s.replace(pat, rep)` for non-empty `pat`. -/
def str_replace (pat rep s : List Char) : List Char :=
  str_replace_go pat rep 0 s

/-- The `while True` loop of `run_yarpgen` (`generator.py:96`-`157`): on
exit 0, read `driver.c` and `func.c`, assert that line index 5 of `func.c`
is the self-include and delete it, concatenate all lines
(`''.join(sum(content, []))` with `content = [driver, func]`), and rewrite
`'void test'` to `'static void test'`; on non-zero exit, count a failure and
raise once `tries > 100`. -/
def run_yarpgen_loop : Nat → List YarpgenOutcome → YarpgenResult
  | _, [] => .pending
  | _, .ok driver func :: _ =>
    if func.get? 5 = some initIncludeLine then
      .ok (str_replace voidTest staticVoidTest
        ((driver ++ func.eraseIdx 5).flatten))
    else .checkFail
  | tries, .fail :: rest =>
    if tries + 1 > 100 then .exhausted else run_yarpgen_loop (tries + 1) rest

/-- `run_yarpgen` (`generator.py:85`-`157`): `tries` starts at 0. -/
def run_yarpgen (outs : List YarpgenOutcome) : YarpgenResult :=
  run_yarpgen_loop 0 outs

theorem run_csmith_loop_exhausted :
    ∀ (outs : List CsmithOutcome) (t : Nat), t ≤ 10 →
      (run_csmith_loop t outs = .exhausted ↔
        outs.take (11 - t) = List.replicate (11 - t) .fail) := by
  intro outs
  induction outs with
  | nil =>
    intro t ht
    have h1 : 11 - t = (10 - t) + 1 := by omega
    rw [h1]
    simp [run_csmith_loop, List.replicate]
  | cons o rest ih =>
    intro t ht
    have h1 : 11 - t = (10 - t) + 1 := by omega
    cases o with
    | ok p =>
      rw [h1]
      simp [run_csmith_loop, List.replicate_succ]
    | fail =>
      simp only [run_csmith_loop]
      by_cases hb : t + 1 > 10
      · have ht10 : t = 10 := by omega
        subst ht10
        rw [if_pos hb]
        simp [List.replicate]
      · rw [if_neg hb]
        have h2 : 10 - t = (11 - (t + 1)) := by omega
        rw [h1, List.replicate_succ]
        rw [List.take_succ_cons]
        rw [ih (t + 1) (by omega)]
        rw [h2]
        simp

theorem run_yarpgen_loop_exhausted :
    ∀ (outs : List YarpgenOutcome) (t : Nat), t ≤ 100 →
      (run_yarpgen_loop t outs = .exhausted ↔
        outs.take (101 - t) = List.replicate (101 - t) .fail) := by
  intro outs
  induction outs with
  | nil =>
    intro t ht
    have h1 : 101 - t = (100 - t) + 1 := by omega
    rw [h1]
    simp [run_yarpgen_loop, List.replicate]
  | cons o rest ih =>
    intro t ht
    have h1 : 101 - t = (100 - t) + 1 := by omega
    cases o with
    | ok driver func =>
      rw [h1]
      have hL : run_yarpgen_loop t (.ok driver func :: rest) ≠ .exhausted := by
        simp only [run_yarpgen_loop]
        by_cases hc : func.get? 5 = some initIncludeLine
        · rw [if_pos hc]; simp
        · rw [if_neg hc]; simp
      have hR : (YarpgenOutcome.ok driver func :: rest).take ((100 - t) + 1) ≠
          List.replicate ((100 - t) + 1) .fail := by
        rw [List.replicate_succ, List.take_succ_cons]
        simp
      exact iff_of_false hL hR
    | fail =>
      simp only [run_yarpgen_loop]
      by_cases hb : t + 1 > 100
      · have ht100 : t = 100 := by omega
        subst ht100
        rw [if_pos hb]
        simp [List.replicate]
      · rw [if_neg hb]
        have h2 : 100 - t = (101 - (t + 1)) := by omega
        rw [h1, List.replicate_succ]
        rw [List.take_succ_cons]
        rw [ih (t + 1) (by omega)]
        rw [h2]
        simp

/-- C4 counterexample: after exactly 10 consecutive generator failures the
csmith loop does not fail fatally — it retries (the model reports `pending`
because the invocation list ran out mid-loop), and an 11th invocation that
succeeds makes `run_csmith` return the program.  The fatal exception needs
11 consecutive failures, because the code raises only when `tries > 10`. -/
theorem run_csmith_bound_counterexample :
    run_csmith (List.replicate 10 .fail) = GenOutcome.pending ∧
    run_csmith (List.replicate 10 .fail ++ [.ok ['p']]) =
      GenOutcome.ok ['p'] ∧
    run_csmith (List.replicate 11 .fail) = GenOutcome.exhausted := by
  refine ⟨by decide, by decide, by decide⟩

/-- C4 (amended): `run_csmith` retries on every non-zero exit and fails
fatally exactly when the first 11 consecutive invocations fail, i.e. once
the failure count exceeds the bound of 10; `run_yarpgen` fails fatally
exactly when the first 101 consecutive invocations fail (bound 100); for
failing invocations, exceeding the bound is the only fatal condition —
though a successful yarpgen invocation whose `func.c` lacks the expected
self-include line additionally aborts on the output-format assertion. -/
theorem generation_retry_bounds :
    (∀ outs : List CsmithOutcome,
        run_csmith outs = .exhausted ↔
        outs.take 11 = List.replicate 11 .fail) ∧
    (∀ outs : List YarpgenOutcome,
        run_yarpgen outs = .exhausted ↔
        outs.take 101 = List.replicate 101 .fail) ∧
    (∀ (driver func : List (List Char)) (rest : List YarpgenOutcome),
        func.get? 5 ≠ some initIncludeLine →
        run_yarpgen (.ok driver func :: rest) = .checkFail) := by
  refine ⟨?_, ?_, ?_⟩
  · intro outs
    exact run_csmith_loop_exhausted outs 0 (by omega)
  · intro outs
    exact run_yarpgen_loop_exhausted outs 0 (by omega)
  · intro driver func rest hfunc
    simp only [run_yarpgen, run_yarpgen_loop]
    rw [if_neg hfunc]

/-- C4 witness. -/
theorem generation_retry_bounds_witness :
    (run_csmith [] = .exhausted ↔
      ([] : List CsmithOutcome).take 11 = List.replicate 11 .fail) ∧
    run_yarpgen [.ok [] [[], [], [], [], [], []]] = .checkFail :=
  ⟨generation_retry_bounds.1 [],
    generation_retry_bounds.2.2 [] [[], [], [], [], [], []] [] (by decide)⟩

/-- C7: a failing prefix of at most the retry budget followed by an exit-0
invocation makes `run_yarpgen` return the concatenation of exactly the two
output files `driver.c` and `func.c`, with the self-include line of `func.c`
verified at index 5 and stripped, and every occurrence of `void test`
rewritten to `static void test`. -/
theorem run_yarpgen_success_output (n : Nat)
    (driver func : List (List Char)) (rest : List YarpgenOutcome)
    (hn : n ≤ 100) (hinc : func.get? 5 = some initIncludeLine) :
    run_yarpgen (List.replicate n .fail ++ .ok driver func :: rest) =
      .ok (str_replace voidTest staticVoidTest
        ((driver ++ func.eraseIdx 5).flatten)) := by
  have hskip : ∀ (n t : Nat) (l : List YarpgenOutcome), t + n ≤ 100 →
      run_yarpgen_loop t (List.replicate n .fail ++ l) =
        run_yarpgen_loop (t + n) l := by
    intro n
    induction n with
    | zero => intro t l h; simp
    | succ n ih =>
      intro t l h
      rw [List.replicate_succ]
      show run_yarpgen_loop t (.fail :: (List.replicate n .fail ++ l)) = _
      simp only [run_yarpgen_loop]
      rw [if_neg (by omega)]
      rw [show t + (n + 1) = (t + 1) + n by omega]
      exact ih (t + 1) l (by omega)
  unfold run_yarpgen
  rw [hskip n 0 _ (by omega)]
  simp only [run_yarpgen_loop]
  rw [if_pos hinc]

/-- C7 witness: `driver.c` holds one line `void testX();\n`-like text, and
`func.c` holds six lines with the self-include at index 5 followed by a
definition of `void test`; the returned text is the stripped concatenation
with the rewrite applied. -/
theorem run_yarpgen_success_output_witness :
    run_yarpgen (List.replicate 2 .fail ++
        [.ok ["AB".data]
          [[], [], [], [], [], initIncludeLine, "void test()\x7b\x7d".data]]) =
      .ok ("AB".data ++ "static void test()\x7b\x7d".data) := by
  have h := run_yarpgen_success_output 2 ["AB".data]
    [[], [], [], [], [], initIncludeLine, "void test()\x7b\x7d".data] []
    (by omega) (by decide)
  rw [h]
  refine congrArg _ (by decide)

/-- The size bounds `exec_cfg.min_size` / `exec_cfg.max_size` used by
`generate_file`. -/
structure ExecCfg where
  min_size : Nat
  max_size : Nat
deriving DecidableEq

/-- Outcome of the instrumentation part of one `generate_file` iteration
(include-path resolution plus `instrument_program`): either a
`subprocess.TimeoutExpired` (caught at `generator.py:228`) or the
instrumented text read back from the temporary file. -/
inductive InstrOutcome
  | timeout
  | ok (text : List Char)
deriving DecidableEq

/-- Outcome of the `gen_program()` call in one `generate_file` iteration:
a `subprocess.TimeoutExpired`, a fatal generator exception (the uncaught
`Exception` of `run_csmith`/`run_yarpgen`), or a candidate program, which
then undergoes size checks and instrumentation. -/
inductive GenStep
  | genTimeout
  | genFatal
  | genOk (candidate : List Char) (instr : InstrOutcome)
deriving DecidableEq

/-- Result of `generate_file`: the marker prefix/instrumented-text pair, a
propagated fatal generator exception, or `diverge` when the modelled event
list is exhausted while the real `while True` loop would keep going. -/
inductive GFOut
  | ok (mpfx : List Char) (code : List Char)
  | fatal
  | diverge
deriving DecidableEq

/-- `generate_file` (`generator.py:178`-`229`): loop forever; a candidate
longer than `max_size` or shorter than `min_size` is discarded and the loop
retries; otherwise the candidate is instrumented (`instrument_program`
reports the fixed prefix `"DCEMarker"`) and the instrumented text returned;
`subprocess.TimeoutExpired` anywhere in the body is swallowed (`pass`) and
the loop restarts; any other exception from `gen_program()` propagates. -/
def generate_file (cfg : ExecCfg) : List GenStep → GFOut
  | [] => .diverge
  | .genTimeout :: rest => generate_file cfg rest
  | .genFatal :: _ => .fatal
  | .genOk cand i :: rest =>
    if cand.length > cfg.max_size then generate_file cfg rest
    else if cand.length < cfg.min_size then generate_file cfg rest
    else
      match i with
      | .timeout => generate_file cfg rest
      | .ok t => .ok "DCEMarker".data t

/-- The candidate accepted by `generate_file` on the iteration where it
returns, with the same branch structure as `generate_file` (`none` when the
loop never returns a value). -/
def generate_file_candidate (cfg : ExecCfg) : List GenStep → Option (List Char)
  | [] => none
  | .genTimeout :: rest => generate_file_candidate cfg rest
  | .genFatal :: _ => none
  | .genOk cand i :: rest =>
    if cand.length > cfg.max_size then generate_file_candidate cfg rest
    else if cand.length < cfg.min_size then generate_file_candidate cfg rest
    else
      match i with
      | .timeout => generate_file_candidate cfg rest
      | .ok _ => some cand

/-- C5: a generator-invocation timeout is swallowed and the loop restarts
unchanged, and there is no bound on timeout retries: a run consisting of
nothing but timeouts never terminates `generate_file` (in particular it is
never fatal). -/
theorem generate_file_timeout_unbounded_retry :
    (∀ (cfg : ExecCfg) (rest : List GenStep),
        generate_file cfg (.genTimeout :: rest) = generate_file cfg rest) ∧
    (∀ (cfg : ExecCfg) (n : Nat),
        generate_file cfg (List.replicate n .genTimeout) = .diverge) := by
  constructor
  · intro cfg rest; rfl
  · intro cfg n
    induction n with
    | zero => rfl
    | succ n ih =>
      rw [List.replicate_succ]
      show generate_file cfg (.genTimeout :: List.replicate n .genTimeout) = _
      rw [show generate_file cfg (.genTimeout :: List.replicate n .genTimeout) =
        generate_file cfg (List.replicate n .genTimeout) from rfl]
      exact ih

/-- C6: every candidate accepted for instrumentation satisfies
`min_size ≤ length ≤ max_size`; an out-of-bounds candidate is discarded and
the loop retries; and `generate_file` returns an instrumented program
exactly when some candidate was accepted. -/
theorem generate_file_size_invariant :
    (∀ (cfg : ExecCfg) (steps : List GenStep) (cand : List Char),
        generate_file_candidate cfg steps = some cand →
        cfg.min_size ≤ cand.length ∧ cand.length ≤ cfg.max_size) ∧
    (∀ (cfg : ExecCfg) (cand : List Char) (i : InstrOutcome)
        (rest : List GenStep),
        (cfg.max_size < cand.length ∨ cand.length < cfg.min_size) →
        generate_file cfg (.genOk cand i :: rest) = generate_file cfg rest) ∧
    (∀ (cfg : ExecCfg) (steps : List GenStep),
        (∃ m t, generate_file cfg steps = .ok m t) ↔
        (∃ cand, generate_file_candidate cfg steps = some cand)) := by
  refine ⟨?_, ?_, ?_⟩
  · intro cfg steps
    induction steps with
    | nil => intro cand h; simp [generate_file_candidate] at h
    | cons s rest ih =>
      intro cand h
      cases s with
      | genTimeout => exact ih cand h
      | genFatal => simp [generate_file_candidate] at h
      | genOk c i =>
        simp only [generate_file_candidate] at h
        by_cases hmax : c.length > cfg.max_size
        · rw [if_pos hmax] at h; exact ih cand h
        · rw [if_neg hmax] at h
          by_cases hmin : c.length < cfg.min_size
          · rw [if_pos hmin] at h; exact ih cand h
          · rw [if_neg hmin] at h
            cases i with
            | timeout => exact ih cand h
            | ok t =>
              simp only [Option.some.injEq] at h
              subst h
              omega
  · intro cfg cand i rest hout
    simp only [generate_file]
    rcases hout with hout | hout
    · rw [if_pos (by omega)]
    · by_cases hmax : cand.length > cfg.max_size
      · rw [if_pos hmax]
      · rw [if_neg hmax, if_pos hout]
  · intro cfg steps
    induction steps with
    | nil => simp [generate_file, generate_file_candidate]
    | cons s rest ih =>
      cases s with
      | genTimeout => exact ih
      | genFatal => simp [generate_file, generate_file_candidate]
      | genOk c i =>
        simp only [generate_file, generate_file_candidate]
        by_cases hmax : c.length > cfg.max_size
        · rw [if_pos hmax, if_pos hmax]; exact ih
        · rw [if_neg hmax, if_neg hmax]
          by_cases hmin : c.length < cfg.min_size
          · rw [if_pos hmin, if_pos hmin]; exact ih
          · rw [if_neg hmin, if_neg hmin]
            cases i with
            | timeout => exact ih
            | ok t => simp

/-- C6 witness. -/
theorem generate_file_size_invariant_witness :
    ((ExecCfg.mk 1 3).min_size ≤ ['a', 'b'].length ∧
      ['a', 'b'].length ≤ (ExecCfg.mk 1 3).max_size) ∧
    generate_file (ExecCfg.mk 1 3)
        [.genOk ['a', 'b', 'c', 'd'] (.ok ['t']),
          .genOk ['a', 'b'] (.ok ['t'])] =
      generate_file (ExecCfg.mk 1 3) [.genOk ['a', 'b'] (.ok ['t'])] :=
  ⟨generate_file_size_invariant.1 (ExecCfg.mk 1 3)
      [.genOk ['a', 'b'] (.ok ['t'])] ['a', 'b'] (by decide),
    generate_file_size_invariant.2.1 (ExecCfg.mk 1 3) ['a', 'b', 'c', 'd']
      (.ok ['t']) [.genOk ['a', 'b'] (.ok ['t'])] (Or.inl (by decide))⟩

/-- Where the consumer of `parallel_interesting_case`
(`generator.py:442`-`462`, start/stop mode) is inside its `while True` loop:
about to block on `queue.get()`; part-way through the SIGSTOP loop with
`pending` workers still to stop, holding the dequeued case; having yielded
the case and waiting for the next request; or part-way through the SIGCONT
loop. -/
inductive CPhase
  | reading
  | stopping (pending : List Nat) (c : Nat)
  | yielded (c : Nat)
  | restarting (pending : List Nat)
deriving DecidableEq

/-- Global state of the orchestrator system: the consumer phase, which
workers are currently SIGSTOPped (by pid), and the contents of the shared
multiprocessing queue. -/
structure OrchState where
  phase : CPhase
  susp : Nat → Bool
  queue : List Nat

/-- One transition of the orchestrator system, `ws` being the pids of the
spawned workers.  The consumer executes its loop one observable action at a
time: dequeue, send SIGSTOP to each worker in turn, yield the case, and —
on the next request — send SIGCONT to each worker in turn.  Any worker that
is not currently suspended may enqueue a serialized case at any moment (the
unbounded loop of `_wrapper_interesting`, `generator.py:353`-`364`); a
SIGSTOPped worker takes no step, which is the OS contract of SIGSTOP the
spec relies on. -/
inductive OrchStep (ws : List Nat) : OrchState → OrchState → Prop
  | get (c : Nat) (f : Nat → Bool) (q : List Nat) :
      OrchStep ws ⟨.reading, f, c :: q⟩ ⟨.stopping ws c, f, q⟩
  | stop (w : Nat) (pending : List Nat) (c : Nat) (f : Nat → Bool)
      (q : List Nat) :
      OrchStep ws ⟨.stopping (w :: pending) c, f, q⟩
        ⟨.stopping pending c, fun x => if x = w then true else f x, q⟩
  | deliver (c : Nat) (f : Nat → Bool) (q : List Nat) :
      OrchStep ws ⟨.stopping [] c, f, q⟩ ⟨.yielded c, f, q⟩
  | request (c : Nat) (f : Nat → Bool) (q : List Nat) :
      OrchStep ws ⟨.yielded c, f, q⟩ ⟨.restarting ws, f, q⟩
  | cont (w : Nat) (pending : List Nat) (f : Nat → Bool) (q : List Nat) :
      OrchStep ws ⟨.restarting (w :: pending), f, q⟩
        ⟨.restarting pending, fun x => if x = w then false else f x, q⟩
  | loop (f : Nat → Bool) (q : List Nat) :
      OrchStep ws ⟨.restarting [], f, q⟩ ⟨.reading, f, q⟩
  | enq (w c : Nat) (s : OrchState) (hw : w ∈ ws)
      (hrun : s.susp w = false) :
      OrchStep ws s ⟨s.phase, s.susp, s.queue ++ [c]⟩

/-- States reachable from the start of the consumer loop (no worker
suspended, empty queue). -/
inductive OrchReach (ws : List Nat) : OrchState → Prop
  | start : OrchReach ws ⟨.reading, fun _ => false, []⟩
  | step {s s'} : OrchReach ws s → OrchStep ws s s' → OrchReach ws s'

/-- Inductive invariant of the consumer loop: during the SIGSTOP loop the
workers already processed are suspended; at the yield point every worker is
suspended; during the SIGCONT loop the workers not yet processed are still
suspended. -/
def OrchInv (ws : List Nat) (s : OrchState) : Prop :=
  match s.phase with
  | .reading => True
  | .stopping pending _ =>
      (∃ l, ws = l ++ pending) ∧
      ∀ w ∈ ws, w ∉ pending → s.susp w = true
  | .yielded _ => ∀ w ∈ ws, s.susp w = true
  | .restarting pending =>
      (∃ l, ws = l ++ pending) ∧ ∀ w ∈ pending, s.susp w = true

theorem orchInv_step (ws : List Nat) (hnd : ws.Nodup) (s s' : OrchState)
    (hinv : OrchInv ws s) (hstep : OrchStep ws s s') : OrchInv ws s' := by
  cases hstep with
  | get c f q =>
    exact ⟨⟨[], rfl⟩, fun w hw hnp => absurd hw hnp⟩
  | stop w pending c f q =>
    have h0 : (∃ l, ws = l ++ (w :: pending)) ∧
        ∀ x ∈ ws, x ∉ (w :: pending) → f x = true := hinv
    obtain ⟨⟨l, hl⟩, hsusp⟩ := h0
    show (∃ l, ws = l ++ pending) ∧
        ∀ x ∈ ws, x ∉ pending → (if x = w then true else f x) = true
    refine ⟨⟨l ++ [w], by rw [hl]; simp⟩, ?_⟩
    intro x hx hnp
    by_cases hxw : x = w
    · simp [hxw]
    · have hxcons : x ∉ w :: pending := by
        intro hmem
        rcases List.mem_cons.mp hmem with h | h
        · exact hxw h
        · exact hnp h
      have := hsusp x hx hxcons
      simpa [hxw] using this
  | deliver c f q =>
    have h0 : (∃ l, ws = l ++ ([] : List Nat)) ∧
        ∀ x ∈ ws, x ∉ ([] : List Nat) → f x = true := hinv
    show ∀ x ∈ ws, f x = true
    intro x hx
    exact h0.2 x hx (by simp)
  | request c f q =>
    have h0 : ∀ x ∈ ws, f x = true := hinv
    exact ⟨⟨[], rfl⟩, h0⟩
  | cont w pending f q =>
    have h0 : (∃ l, ws = l ++ (w :: pending)) ∧
        ∀ x ∈ w :: pending, f x = true := hinv
    obtain ⟨⟨l, hl⟩, hsusp⟩ := h0
    have hnodup : (w :: pending).Nodup := by
      rw [hl] at hnd
      exact hnd.of_append_right
    have hwnp : w ∉ pending := (List.nodup_cons.mp hnodup).1
    show (∃ l, ws = l ++ pending) ∧
        ∀ x ∈ pending, (if x = w then false else f x) = true
    refine ⟨⟨l ++ [w], by rw [hl]; simp⟩, ?_⟩
    intro x hx
    have hne : x ≠ w := fun h => hwnp (h ▸ hx)
    have := hsusp x (List.mem_cons_of_mem _ hx)
    simpa [hne] using this
  | loop f q => trivial
  | enq w c s hw hrun => exact hinv

theorem orchInv_reach (ws : List Nat) (hnd : ws.Nodup) (s : OrchState)
    (h : OrchReach ws s) : OrchInv ws s := by
  induction h with
  | start => trivial
  | step hr hs ih => exact orchInv_step ws hnd _ _ ih hs

/-- C8: in start/stop mode, at the moment a case has been delivered (and
until the first SIGCONT of the subsequent resume loop) every worker is
suspended, and no step taken from such a state can place a new case on the
queue: whatever happens next, the queue is unchanged, so no second case
becomes observable between a delivered case and the subsequent resume
signal. -/
theorem backpressure_no_second_case (ws : List Nat) (hnd : ws.Nodup)
    (s s' : OrchState) (c : Nat) (hr : OrchReach ws s)
    (hphase : s.phase = .yielded c ∨ s.phase = .restarting ws)
    (hstep : OrchStep ws s s') :
    s'.queue = s.queue ∧
    (s.phase = .yielded c → ∀ w ∈ ws, s.susp w = true) := by
  obtain ⟨ph, f, q⟩ := s
  rcases hphase with hy | hrest
  · change ph = CPhase.yielded c at hy
    subst hy
    have hsusp : ∀ w ∈ ws, f w = true := orchInv_reach ws hnd _ hr
    cases hstep with
    | request _ _ _ => exact ⟨rfl, fun _ => hsusp⟩
    | enq w c' _ hw hrun =>
      have hfw : f w = false := hrun
      exact absurd hfw (by rw [hsusp w hw]; simp)
  · change ph = CPhase.restarting ws at hrest
    subst hrest
    have hinv : (∃ l, ws = l ++ ws) ∧ ∀ x ∈ ws, f x = true :=
      orchInv_reach ws hnd _ hr
    cases hstep with
    | cont w pending f' q' => exact ⟨rfl, fun hy => by simp at hy⟩
    | loop f' q' => exact ⟨rfl, fun hy => by simp at hy⟩
    | enq w c' _ hw hrun =>
      have hfw : f w = false := hrun
      exact absurd hfw (by rw [hinv.2 w hw]; simp)

/-- C8 witness: one worker (pid 0); it enqueues case 5, the consumer
dequeues it, the worker enqueues case 9 before being stopped, the consumer
stops the worker and yields case 5; the next step (the consumer's request)
leaves the queue untouched and the worker is suspended at the yield point. -/
theorem backpressure_no_second_case_witness :
    ([9] : List Nat) = [9] ∧
    (CPhase.yielded 5 = CPhase.yielded 5 →
      ∀ w ∈ ([0] : List Nat),
        (fun x => if x = 0 then true else false) w = true) :=
  backpressure_no_second_case [0] (by decide)
    ⟨.yielded 5, fun x => if x = 0 then true else false, [9]⟩
    ⟨.restarting [0], fun x => if x = 0 then true else false, [9]⟩
    5
    (OrchReach.step (OrchReach.step (OrchReach.step (OrchReach.step
      (OrchReach.step OrchReach.start
        (OrchStep.enq 0 5 ⟨.reading, fun _ => false, []⟩ (by decide) rfl))
      (OrchStep.get 5 (fun _ => false) []))
      (OrchStep.enq 0 9 ⟨.stopping [0] 5, fun _ => false, []⟩ (by decide) rfl))
      (OrchStep.stop 0 [] 5 (fun _ => false) [9]))
      (OrchStep.deliver 5 (fun x => if x = 0 then true else false) [9]))
    (Or.inl rfl)
    (OrchStep.request 5 (fun x => if x = 0 then true else false) [9])

/-- State of one worker process as the OS sees it. -/
inductive ProcState
  | running
  | stopped
  | dead
deriving DecidableEq

/-- Effect of `os.kill(pid, signal.SIGCONT)` (`generator.py:469`): resumes a
stopped process; no effect on a running or dead one (OS signal contract). -/
def sendCont : ProcState → ProcState
  | .stopped => .running
  | s => s

/-- Effect of `Process.terminate()`, i.e. SIGTERM (`generator.py:470`):
kills a running process; a stopped process is not reclaimed while stopped —
the OS contract the spec records as "a worker must be running, not stopped,
for termination to reliably reclaim its resources". -/
def sendTerm : ProcState → ProcState
  | .running => .dead
  | s => s

/-- A spawned worker: its pid (`none` when the process never started) and
its current state. -/
structure Proc where
  pid : Option Nat
  state : ProcState
deriving DecidableEq

/-- `CaseGenerator.terminate_processes` (`generator.py:464`-`470`): every
worker with a pid receives SIGCONT first and only then SIGTERM; workers
without a pid are skipped. -/
def terminate_processes (procs : List Proc) : List Proc :=
  procs.map fun p =>
    match p.pid with
    | none => p
    | some _ => Proc.mk p.pid (sendTerm (sendCont p.state))

/-- C9: after `terminate_processes` no worker with a pid remains alive,
whatever state it was in — in particular when it was suspended, because the
SIGCONT sent first makes it running before the SIGTERM arrives. -/
theorem terminate_processes_kills_all (procs : List Proc) :
    ∀ p ∈ terminate_processes procs, p.pid.isSome → p.state = .dead := by
  intro p hp hpid
  obtain ⟨p0, hp0, hmap⟩ := List.mem_map.mp hp
  obtain ⟨pid0, st0⟩ := p0
  cases pid0 with
  | none =>
    subst hmap
    exact Bool.noConfusion (show false = true from hpid)
  | some n =>
    subst hmap
    show (Proc.mk (some n) (sendTerm (sendCont st0))).state = .dead
    cases st0 <;> rfl

/-- C9 witness: a suspended worker with pid 1 is dead after teardown. -/
theorem terminate_processes_kills_all_witness :
    (Proc.mk (some 1) ProcState.dead).state = ProcState.dead :=
  terminate_processes_kills_all [Proc.mk (some 1) ProcState.stopped]
    (Proc.mk (some 1) ProcState.dead) (by decide) (by decide)

end Dead
